import Mathlib

/-!
# Verification of the credential and transport layer of an Okta IGA client

Shallow embedding of the token manager (`src/okta/oauthServiceApp.ts`),
the HTTP client with retry/backoff/pagination (`src/okta/client.ts`) and
the rate-limit tracker, together with proofs and refutations of the
specification's claims about them.

Conventions of the embedding:
* machine time (`Date.now()`, Unix ms) is an `Int` passed explicitly;
  inside one modelled operation a single instant is used for every
  `Date.now()` read of that operation;
* `crypto.randomUUID()` is modelled by a strictly increasing `Nat`
  supply (distinct numbers stand for distinct UUIDs);
* JavaScript string truthiness (`null` and `""` are falsy) is modelled
  by `truthy : Option String → Bool`;
* fallible paths return `Except`; thrown `OktaApiError`s are data.
-/

/-- JS truthiness of a nullable string: `null` and the empty string are falsy. -/
def truthy : Option String → Bool
  | none => false
  | some s => !(s == "")

/-- JS `a || b` for a nullable integer `a` (`undefined` and `0` are falsy). -/
def jsOrInt (v : Option Int) (d : Int) : Int :=
  match v with
  | some x => if x = 0 then d else x
  | none => d

/-- Worker for `haystack.includes(needle)` on character lists. -/
def containsAux (pat : List Char) : List Char → Bool
  | [] => pat.isEmpty
  | c :: rest => pat.isPrefixOf (c :: rest) || containsAux pat rest

/-- JS `String.prototype.includes`. -/
def strContains (s pat : String) : Bool :=
  containsAux pat.toList s.toList

-- ============================================================================
-- Token manager (`src/okta/oauthServiceApp.ts`)
-- ============================================================================

/-- Model of `interface TokenCache` — cached bearer token with absolute expiry (ms). -/
structure TokenCache where
  accessToken : String
  expiresAt : Int
deriving Repr, DecidableEq, Inhabited

/-- The configuration fields the credential/transport core reads. -/
structure Config where
  oktaDomain : String
  authServerId : Option String
  clientId : String
  scopes : List String
  maxRetries : Nat
  timeoutMs : Nat
deriving Repr, DecidableEq, Inhabited

/-- Token endpoint URL, as computed in `buildClientAssertion`/`fetchAccessToken`. -/
def tokenEndpoint (cfg : Config) : String :=
  match cfg.authServerId with
  | some id => cfg.oktaDomain ++ "/oauth2/" ++ id ++ "/v1/token"
  | none => cfg.oktaDomain ++ "/oauth2/v1/token"

/-- Claims of a DPoP proof JWT, as assembled by `createDPoPProof`.
`ath` in the source is the base64url SHA-256 digest of the access token;
the model records the bound token itself, since no claim inspects the
digest's value, only which token (if any) the proof is bound to. -/
structure DPoPProof where
  jti : Nat
  htm : String
  htu : String
  iat : Int
  nonce : Option String
  ath : Option String
deriving Repr, DecidableEq, Inhabited

/-- Model of `createDPoPProof(httpMethod, httpUri, accessToken?, nonce?)`: the claims
use the explicit nonce if truthy, else the shared module-level `dpopNonce`
if truthy (`if (nonce || dpopNonce) claims.nonce = nonce || dpopNonce`). -/
def createDPoPProof (sharedNonce : Option String) (uuid : Nat) (now : Int)
    (httpMethod httpUri : String) (accessToken : Option String)
    (nonce : Option String) : DPoPProof :=
  { jti := uuid
    htm := httpMethod
    htu := httpUri
    iat := now
    nonce := if truthy nonce then nonce else if truthy sharedNonce then sharedNonce else none
    ath := accessToken }

/-- Claims of a `client_assertion` JWT, as built by `buildClientAssertion`. -/
structure ClientAssertion where
  iss : String
  sub : String
  aud : String
  iat : Int
  exp : Int
  jti : Nat
deriving Repr, DecidableEq, Inhabited

/-- Model of `buildClientAssertion(config)`: issuer = subject = clientId, audience =
token endpoint, five-minute validity, fresh `jti`. -/
def buildClientAssertion (cfg : Config) (uuid : Nat) (now : Int) : ClientAssertion :=
  { iss := cfg.clientId
    sub := cfg.clientId
    aud := tokenEndpoint cfg
    iat := now
    exp := now + 300
    jti := uuid }

/-- A token-endpoint HTTP response, as the source reads it: status,
body text (checked for `use_dpop_nonce`), the `DPoP-Nonce` response
header, and the decoded JSON success fields. -/
structure TokenResp where
  status : Nat
  bodyText : String
  dpopNonceHeader : Option String
  access_token : String
  expires_in : Int
deriving Repr, DecidableEq, Inhabited

/-- One submitted token-exchange attempt: the assertion and proof it carried. -/
structure TokenAttempt where
  assertion : ClientAssertion
  proof : DPoPProof
deriving Repr, DecidableEq, Inhabited

/-- Outcome of `fetchAccessToken`: the thrown-or-returned result, the shared
`dpopNonce` after the call, and the transcript of submitted attempts. -/
structure FetchResult where
  result : Except String TokenCache
  nonce : Option String
  attempts : List TokenAttempt
deriving Repr, Inhabited

/-- Tail of `fetchAccessToken` applied to the final response: the shared
nonce is overwritten by the final response's `DPoP-Nonce` header whenever
that header is truthy (`if (nonceHeader) dpopNonce = nonceHeader`). -/
def tokenFinishNonce (r : TokenResp) (nonce : Option String) : Option String :=
  if truthy r.dpopNonceHeader then r.dpopNonceHeader else nonce

/-- Branch of `fetchAccessToken` after the final response: throw on non-ok
status, otherwise cache with the 60-second safety margin. -/
def tokenFinish (r : TokenResp) (nonce : Option String) (atts : List TokenAttempt)
    (now : Int) : FetchResult :=
  if 200 ≤ r.status ∧ r.status < 300 then
    { result := .ok { accessToken := r.access_token
                      expiresAt := now + (r.expires_in - 60) * 1000 }
      nonce := tokenFinishNonce r nonce
      attempts := atts }
  else
    { result := .error ("Token request failed (" ++ toString r.status ++ "): " ++ r.bodyText)
      nonce := tokenFinishNonce r nonce
      attempts := atts }

/-- Model of `fetchAccessToken(config)`. Here `server k` is the token endpoint's response to
the `k`-th submission of this acquisition; `uuid` seeds the UUID supply
(first assertion, first proof, retry assertion, retry proof use
`uuid`, `uuid+1`, `uuid+2`, `uuid+3`). A 400 response whose body contains
`use_dpop_nonce` and that carries a truthy `DPoP-Nonce` header triggers
exactly one resubmission with a fresh assertion and a nonce-bearing proof. -/
def fetchAccessToken (cfg : Config) (nonce0 : Option String)
    (server : Nat → TokenResp) (uuid : Nat) (now : Int) : FetchResult :=
  let ep := tokenEndpoint cfg
  let a1 := buildClientAssertion cfg uuid now
  let p1 := createDPoPProof nonce0 (uuid + 1) now "POST" ep none none
  let r1 := server 0
  if r1.status = 400 ∧ strContains r1.bodyText "use_dpop_nonce" then
    match r1.dpopNonceHeader with
    | some n =>
      if n ≠ "" then
        let a2 := buildClientAssertion cfg (uuid + 2) now
        let p2 := createDPoPProof (some n) (uuid + 3) now "POST" ep none (some n)
        let r2 := server 1
        tokenFinish r2 (some n) [⟨a1, p1⟩, ⟨a2, p2⟩] now
      else tokenFinish r1 nonce0 [⟨a1, p1⟩] now
    | none => tokenFinish r1 nonce0 [⟨a1, p1⟩] now
  else tokenFinish r1 nonce0 [⟨a1, p1⟩] now

/-- Outcome of one `getAccessToken` call: result, cache and nonce afterwards,
and whether a token exchange (`fetchAccessToken`) was issued. The source
returns `tokenCache.accessToken`; the model returns the whole cache entry so
its `expiresAt` is observable. -/
structure GetResult where
  result : Except String TokenCache
  cache : Option TokenCache
  nonce : Option String
  fetched : Bool
deriving Repr, Inhabited

/-- Refresh path of `getAccessToken`: `tokenCache = await
fetchAccessToken(config); return tokenCache.accessToken` — a successful
fetch replaces the cache and is returned, a thrown fetch propagates and
leaves the cache untouched (the nonce updates either way, since the
module-level `dpopNonce` was already written inside `fetchAccessToken`). -/
def refreshResult (cache : Option TokenCache) (f : FetchResult) : GetResult :=
  match f.result with
  | .ok tc2 => { result := .ok tc2, cache := some tc2, nonce := f.nonce, fetched := true }
  | .error e => { result := .error e, cache := cache, nonce := f.nonce, fetched := true }

/-- Model of `getAccessToken(config)`: cache hit when `Date.now() <
tokenCache.expiresAt`, otherwise refresh. -/
def getAccessToken (cfg : Config) (cache : Option TokenCache) (nonce0 : Option String)
    (server : Nat → TokenResp) (uuid : Nat) (now : Int) : GetResult :=
  match cache with
  | some tc =>
    if now < tc.expiresAt then
      { result := .ok tc, cache := cache, nonce := nonce0, fetched := false }
    else
      refreshResult cache (fetchAccessToken cfg nonce0 server uuid now)
  | none => refreshResult none (fetchAccessToken cfg nonce0 server uuid now)

/-- One sequential `getAccessToken` call of a trace: its instant, the token
endpoint behaviour it would observe, and its UUID seed. -/
structure TMCall where
  now : Int
  server : Nat → TokenResp
  uuid : Nat

/-- Run a sequence of `getAccessToken` calls, threading the module-level
`tokenCache` and `dpopNonce`; collects `(use time, result)` per call. -/
def runTM (cfg : Config) (cache : Option TokenCache) (nonce0 : Option String) :
    List TMCall → List (Int × Except String TokenCache)
  | [] => []
  | c :: rest =>
    let g := getAccessToken cfg cache nonce0 c.server c.uuid c.now
    (c.now, g.result) :: runTM cfg g.cache g.nonce rest

/-- Model of `updateDPoPNonce(nonce)`: overwrite the shared nonce only with a truthy
value; `null` (and `""`) leave it unchanged. -/
def updateDPoPNonce (st : Option String) (v : Option String) : Option String :=
  if truthy v then v else st

/-- Model of `createDPoPProofForRequest(method, uri, accessToken)`: a proof for a
resource call, bound to the access token, using the shared nonce
(`dpopNonce || undefined`). Exported by the token manager but never called
by the HTTP client. -/
def createDPoPProofForRequest (sharedNonce : Option String) (uuid : Nat) (now : Int)
    (httpMethod httpUri accessToken : String) : DPoPProof :=
  createDPoPProof sharedNonce uuid now httpMethod httpUri (some accessToken)
    (if truthy sharedNonce then sharedNonce else none)

-- ============================================================================
-- Interleaving model of concurrent getAccessToken callers
-- ============================================================================

/- In the Node.js event loop, `getAccessToken` runs synchronously from its
cache check (line `if (tokenCache && Date.now() < tokenCache.expiresAt)`)
up to `await fetchAccessToken(config)`, where it suspends; the assignment
`tokenCache = ...` and the return run when that promise resolves. A caller
is therefore two atomic phases: `start` (check the cache; on a miss,
launch a token exchange and become pending) and `complete` (its exchange
resolves; write the cache, return the token). There is no lock or shared
in-flight promise in the source. -/

/-- Shared state seen by concurrent `getAccessToken` callers. -/
structure ConcState where
  cache : Option TokenCache
  pending : List Nat
  exchanges : Nat
  returns : List (Nat × TokenCache)
deriving Repr, DecidableEq, Inhabited

/-- An interleaving step: a caller starts (runs its cache check), or a
caller's in-flight token exchange completes with the given response. -/
inductive CStep where
  | start (caller : Nat) (now : Int)
  | complete (caller : Nat) (resp : TokenResp) (now : Int)
deriving Repr, DecidableEq, Inhabited

/-- Small-step semantics of the unsynchronised `getAccessToken`. -/
def concStep (s : ConcState) : CStep → ConcState
  | .start c now =>
    match s.cache with
    | some tc =>
      if now < tc.expiresAt then { s with returns := s.returns ++ [(c, tc)] }
      else { s with pending := s.pending ++ [c], exchanges := s.exchanges + 1 }
    | none => { s with pending := s.pending ++ [c], exchanges := s.exchanges + 1 }
  | .complete c resp now =>
    if s.pending.contains c then
      let tc : TokenCache := { accessToken := resp.access_token
                               expiresAt := now + (resp.expires_in - 60) * 1000 }
      { s with pending := s.pending.erase c
               cache := some tc
               returns := s.returns ++ [(c, tc)] }
    else s

/-- Run an interleaving of concurrent callers. -/
def runConc (s : ConcState) (steps : List CStep) : ConcState :=
  steps.foldl concStep s

/-- Initial shared state: empty cache, nothing in flight. -/
def concInit : ConcState :=
  { cache := none, pending := [], exchanges := 0, returns := [] }

-- ============================================================================
-- Rate-limit tracking (`src/okta/client.ts`)
-- ============================================================================

/-- Model of `interface RateLimitState` (client.ts). -/
structure RateLimitState where
  limit : Int
  remaining : Int
  reset : Int
  lastUpdated : Int
deriving Repr, DecidableEq, Inhabited

/-- A resource-endpoint HTTP response as the client reads it. Headers are
pre-parsed (`parseInt` of a present numeric header is `some`); `oktaBody`
is `some` when `JSON.parse` of the body succeeds; `itemsJson` is the
decoded array body used by `paginatedRequest`. -/
structure HttpResp where
  status : Nat
  statusText : String
  limitH : Option Int
  remainingH : Option Int
  resetH : Option Int
  linkH : Option String
  bodyText : String
  errorSummaryB : Option String
  itemsJson : List String
deriving Repr, DecidableEq, Inhabited

/-- Model of `updateRateLimitState(headers)`: atomic update only when all three of
`X-Rate-Limit-Limit`, `-Remaining`, `-Reset` are present. -/
def updateRateLimitState (rls : Option RateLimitState) (r : HttpResp) (now : Int) :
    Option RateLimitState :=
  match r.limitH, r.remainingH, r.resetH with
  | some l, some rem, some rs =>
    some { limit := l, remaining := rem, reset := rs, lastUpdated := now }
  | _, _, _ => rls

/-- Result of `getRateLimitInfo(headers)`. -/
structure RateLimitInfo where
  retryAfterMs : Option Int
  remaining : Option Int
  reset : Option Int
deriving Repr, DecidableEq, Inhabited

/-- Model of `getRateLimitInfo(headers)`: `retryAfterMs = max(0, reset*1000 - now) +
1000` when a (truthy, hence nonzero) reset header is present. -/
def getRateLimitInfo (r : HttpResp) (now : Int) : RateLimitInfo :=
  { retryAfterMs :=
      match r.resetH with
      | some v => if v = 0 then none else some (max 0 (v * 1000 - now) + 1000)
      | none => none
    remaining := r.remainingH
    reset := r.resetH }

/-- Model of `proactiveRateLimitDelay()`: the duration slept before an attempt.
Exact-rational model of the JS float arithmetic (`limit * 0.1`,
`timeUntilReset / Math.max(1, remaining)`, `Math.min(..., 2000)`). -/
def proactiveRateLimitDelay (rls : Option RateLimitState) (now : Int) : ℚ :=
  match rls with
  | none => 0
  | some s =>
    let threshold : ℚ := max 5 ((s.limit : ℚ) / 10)
    if (s.remaining : ℚ) < threshold then
      let timeUntilReset : ℚ := (s.reset : ℚ) * 1000 - (now : ℚ)
      if 0 < timeUntilReset then
        min (timeUntilReset / max 1 (s.remaining : ℚ)) 2000
      else 0
    else 0

-- ============================================================================
-- Pagination: Link header and cursor extraction (`src/okta/client.ts`)
-- ============================================================================

/-- The regex `<([^>]+)>;\s*rel="next"` applied at a `<`: capture the
nonempty run up to the first `>`, then require `;`, optional whitespace,
and the literal `rel="next"`. -/
def tryAngle (cs : List Char) : Option String :=
  let u := cs.takeWhile (· ≠ '>')
  let rest := cs.dropWhile (· ≠ '>')
  if u.isEmpty then none
  else
    match rest with
    | '>' :: ';' :: r2 =>
      let r3 := r2.dropWhile (fun c => c = ' ' ∨ c = '\t' ∨ c = '\n' ∨ c = '\r')
      if ("rel=\"next\"").toList.isPrefixOf r3 then some (String.mk u) else none
    | _ => none

/-- Leftmost match of `<([^>]+)>;\s*rel="next"` in one comma-segment. -/
def matchNextLink : List Char → Option String
  | [] => none
  | '<' :: rest =>
    match tryAngle rest with
    | some u => some u
    | none => matchNextLink rest
  | _ :: rest => matchNextLink rest

/-- First `some` among the per-segment matches, in order. -/
def firstSome : List (List Char) → Option String
  | [] => none
  | seg :: rest =>
    match matchNextLink seg with
    | some u => some u
    | none => firstSome rest

/-- Model of `String.prototype.split(sep)` for a one-character separator, over
character lists (`"a,,b"` → `["a", "", "b"]`, `""` → `[""]`). -/
def splitOnChar (c : Char) : List Char → List (List Char)
  | [] => [[]]
  | x :: rest =>
    if x = c then [] :: splitOnChar c rest
    else
      match splitOnChar c rest with
      | [] => [[x]]
      | seg :: segs => (x :: seg) :: segs

/-- Model of `parseNextLink(linkHeader)`: split the `Link` header on `,`; return the
first segment's `rel="next"` URL. -/
def parseNextLink (linkHeader : Option String) : Option String :=
  match linkHeader with
  | none => none
  | some h => firstSome (splitOnChar ',' h.toList)

/-- One hex digit's value. -/
def hexVal (c : Char) : Option Nat :=
  if '0' ≤ c ∧ c ≤ '9' then some (c.toNat - '0'.toNat)
  else if 'a' ≤ c ∧ c ≤ 'f' then some (c.toNat - 'a'.toNat + 10)
  else if 'A' ≤ c ∧ c ≤ 'F' then some (c.toNat - 'A'.toNat + 10)
  else none

/-- Form-urlencoded (`application/x-www-form-urlencoded`) decoding of a query component, as
`URLSearchParams` applies it: `+` is a space, valid `%hh` escapes decode,
malformed escapes pass through. -/
def urlDecodeAux : List Char → List Char
  | [] => []
  | '+' :: rest => ' ' :: urlDecodeAux rest
  | '%' :: a :: b :: rest =>
    match hexVal a, hexVal b with
    | some x, some y => Char.ofNat (16 * x + y) :: urlDecodeAux rest
    | _, _ => '%' :: urlDecodeAux (a :: b :: rest)
  | c :: rest => c :: urlDecodeAux rest

/-- Is `cs` a valid URL scheme (`[a-zA-Z][a-zA-Z0-9+.-]*`)? -/
def validScheme (cs : List Char) : Bool :=
  match cs with
  | [] => false
  | c :: rest => c.isAlpha && rest.all (fun d => d.isAlpha || d.isDigit || d = '+' || d = '-' || d = '.')

/-- The query component of an absolute URL: `new URL(s)` followed by reading
the search string. `none` models the `URL` constructor throwing (no valid
scheme); `some q` is the text between the first `?` and the fragment. -/
def parseURLQuery (s : String) : Option String :=
  let cs := s.toList
  if cs.contains ':' ∧ validScheme (cs.takeWhile (· ≠ ':')) then
    let beforeHash := cs.takeWhile (· ≠ '#')
    match beforeHash.dropWhile (· ≠ '?') with
    | [] => some ""
    | _ :: q => some (String.mk q)
  else none

/-- The key/value pairs of a query string, as `URLSearchParams` parses it:
split on `&`, skip empty segments, split each at the first `=`, decode. -/
def splitPairs (q : String) : List (String × String) :=
  (splitOnChar '&' q.toList).filterMap fun seg =>
    if seg.isEmpty then none
    else
      let k := seg.takeWhile (· ≠ '=')
      let v := match seg.dropWhile (· ≠ '=') with
        | [] => []
        | _ :: t => t
      some (String.mk (urlDecodeAux k), String.mk (urlDecodeAux v))

/-- Model of `extractAfterCursor(nextLink)`: `new URL(nextLink).searchParams.get('after')
|| undefined`, with the `try`/`catch` yielding `undefined` on an invalid URL
and `||` turning an empty-string value into `undefined`. -/
def extractAfterCursor (nextLink : Option String) : Option String :=
  match nextLink with
  | none => none
  | some link =>
    match parseURLQuery link with
    | none => none
    | some q =>
      match List.lookup "after" (splitPairs q) with
      | some v => if v = "" then none else some v
      | none => none

-- ============================================================================
-- Request executor (`createOktaClient` in `src/okta/client.ts`)
-- ============================================================================

/-- Decoded upstream Okta error body (`interface OktaError`). -/
structure OktaErrorB where
  errorCode : String
  errorSummary : String
  errorId : Option String
  errorCauses : List String
deriving Repr, DecidableEq, Inhabited

/-- The data of a thrown `OktaApiError`. -/
structure OktaApiError where
  statusCode : Nat
  message : String
  retryAfterMs : Option Int
  rateLimitRemaining : Option Int
  rateLimitReset : Option Int
deriving Repr, DecidableEq, Inhabited

/-- Model of `OktaApiError.getErrorType()`: HTTP status to error kind. -/
def getErrorType (e : OktaApiError) : String :=
  if e.statusCode = 429 then "rate_limit_error"
  else if e.statusCode = 401 ∨ e.statusCode = 403 then "auth_error"
  else if e.statusCode = 404 then "not_found_error"
  else if e.statusCode = 400 ∨ e.statusCode = 422 then "validation_error"
  else "api_error"

/-- What one `fetch` attempt produced: an HTTP response, or a thrown
transport fault identified by the error's `name` (`AbortError` /
`TimeoutError` for the `AbortSignal.timeout` bound, anything else for
other network failures). -/
inductive FetchOutcome where
  | resp (r : HttpResp)
  | fault (name : String)
deriving Repr, DecidableEq, Inhabited

/-- Failure surfaced by `request`: a thrown `OktaApiError`, or a re-thrown
raw transport error. -/
inductive ReqError where
  | api (e : OktaApiError)
  | raw (name : String)
deriving Repr, DecidableEq, Inhabited

/-- Observable run of the retry loop: final result, the durations of the
retry sleeps (429/5xx backoff waits, in ms), the proactive rate-limit
delays awaited before each attempt, how many HTTP attempts were issued,
the headers each attempt sent, and the final rate-limit state. -/
structure ReqRun (α : Type) where
  result : Except ReqError α
  retrySleeps : List Int
  proactive : List ℚ
  attemptsMade : Nat
  headersSent : List (List (String × String))
  rlsFinal : Option RateLimitState
deriving Repr, Inhabited

/-- The headers `request`/`paginatedRequest` attach to every attempt. -/
def resourceRequestHeaders (token : String) : List (String × String) :=
  [("Authorization", "Bearer " ++ token),
   ("Accept", "application/json"),
   ("Content-Type", "application/json")]

/-- The backoff formula `Math.min(1000 * Math.pow(2, attempt), 30000)`. -/
def backoffDelay (attempt : Nat) : Int :=
  min (1000 * 2 ^ attempt) 30000

/-- Model of `oktaError?.errorSummary || defaultMsg` (empty summary is falsy). -/
def errorMessageFor (r : HttpResp) : String :=
  match r.errorSummaryB with
  | some s => if s = "" then "Okta API error: " ++ toString r.status ++ " " ++ r.statusText else s
  | none => "Okta API error: " ++ toString r.status ++ " " ++ r.statusText

/-- The `for (let attempt = 0; attempt <= config.maxRetries; attempt++)`
loop of `request`, with `fuel = maxRetries + 1 - attempt` loop iterations
remaining. `server k` / `times k` are the fetch outcome and `Date.now()`
instant of attempt `k`; the access token resolution is modelled as
succeeding with the fixed `token`. Transport faults are retried with no
backoff sleep; 429 waits the server hint or the exponential backoff; 5xx
waits the exponential backoff; other non-2xx throw immediately. -/
def requestAux (maxRetries timeoutMs : Nat) (token : String)
    (server : Nat → FetchOutcome) (times : Nat → Int) :
    Nat → Nat → Option RateLimitState → Option ReqError → ReqRun String
  | _, 0, rls, lastError =>
    { result := .error (lastError.getD (.raw "Request failed after retries"))
      retrySleeps := [], proactive := [], attemptsMade := 0, headersSent := []
      rlsFinal := rls }
  | attempt, fuel + 1, rls, _lastError =>
    let pd := proactiveRateLimitDelay rls (times attempt)
    let hdr := resourceRequestHeaders token
    match server attempt with
    | .fault name =>
      if attempt < maxRetries then
        let rest := requestAux maxRetries timeoutMs token server times
          (attempt + 1) fuel rls (some (.raw name))
        { rest with proactive := pd :: rest.proactive
                    attemptsMade := rest.attemptsMade + 1
                    headersSent := hdr :: rest.headersSent }
      else
        let e : ReqError :=
          if name = "AbortError" ∨ name = "TimeoutError" then
            .api { statusCode := 0
                   message := "Request timeout after " ++ toString timeoutMs ++ "ms"
                   retryAfterMs := none, rateLimitRemaining := none, rateLimitReset := none }
          else .raw name
        { result := .error e, retrySleeps := [], proactive := [pd], attemptsMade := 1
          headersSent := [hdr], rlsFinal := rls }
    | .resp r =>
      let rls2 := updateRateLimitState rls r (times attempt)
      if r.status = 429 then
        let info := getRateLimitInfo r (times attempt)
        let waitMs := jsOrInt info.retryAfterMs (backoffDelay attempt)
        if attempt < maxRetries then
          let rest := requestAux maxRetries timeoutMs token server times
            (attempt + 1) fuel rls2 _lastError
          { rest with retrySleeps := waitMs :: rest.retrySleeps
                      proactive := pd :: rest.proactive
                      attemptsMade := rest.attemptsMade + 1
                      headersSent := hdr :: rest.headersSent }
        else
          { result := .error (.api { statusCode := 429, message := "Rate limit exceeded"
                                     retryAfterMs := info.retryAfterMs
                                     rateLimitRemaining := info.remaining
                                     rateLimitReset := info.reset })
            retrySleeps := [], proactive := [pd], attemptsMade := 1
            headersSent := [hdr], rlsFinal := rls2 }
      else if 500 ≤ r.status ∧ attempt < maxRetries then
        let rest := requestAux maxRetries timeoutMs token server times
          (attempt + 1) fuel rls2 _lastError
        { rest with retrySleeps := backoffDelay attempt :: rest.retrySleeps
                    proactive := pd :: rest.proactive
                    attemptsMade := rest.attemptsMade + 1
                    headersSent := hdr :: rest.headersSent }
      else if ¬ (200 ≤ r.status ∧ r.status < 300) then
        let info := getRateLimitInfo r (times attempt)
        { result := .error (.api { statusCode := r.status, message := errorMessageFor r
                                   retryAfterMs := info.retryAfterMs
                                   rateLimitRemaining := info.remaining
                                   rateLimitReset := info.reset })
          retrySleeps := [], proactive := [pd], attemptsMade := 1
          headersSent := [hdr], rlsFinal := rls2 }
      else
        { result := .ok r.bodyText, retrySleeps := [], proactive := [pd], attemptsMade := 1
          headersSent := [hdr], rlsFinal := rls2 }

/-- Model of `request(options)`: run the retry loop from attempt 0. -/
def runRequest (cfg : Config) (token : String) (server : Nat → FetchOutcome)
    (times : Nat → Int) (rls : Option RateLimitState) : ReqRun String :=
  requestAux cfg.maxRetries cfg.timeoutMs token server times 0 (cfg.maxRetries + 1) rls none

/-- Model of `interface PaginatedResponse<T>`. -/
structure PaginatedResponse where
  items : List String
  nextAfter : Option String
  nextLink : Option String
deriving Repr, DecidableEq, Inhabited

/-- The retry loop of `paginatedRequest` — identical to `request` except the
success path also parses the `Link` header and derives the cursor
(`nextLink = parseNextLink(linkHeader)`, `nextAfter =
extractAfterCursor(nextLink)`). -/
def paginatedAux (maxRetries timeoutMs : Nat) (token : String)
    (server : Nat → FetchOutcome) (times : Nat → Int) :
    Nat → Nat → Option RateLimitState → Option ReqError → ReqRun PaginatedResponse
  | _, 0, rls, lastError =>
    { result := .error (lastError.getD (.raw "Request failed after retries"))
      retrySleeps := [], proactive := [], attemptsMade := 0, headersSent := []
      rlsFinal := rls }
  | attempt, fuel + 1, rls, _lastError =>
    let pd := proactiveRateLimitDelay rls (times attempt)
    let hdr := resourceRequestHeaders token
    match server attempt with
    | .fault name =>
      if attempt < maxRetries then
        let rest := paginatedAux maxRetries timeoutMs token server times
          (attempt + 1) fuel rls (some (.raw name))
        { rest with proactive := pd :: rest.proactive
                    attemptsMade := rest.attemptsMade + 1
                    headersSent := hdr :: rest.headersSent }
      else
        let e : ReqError :=
          if name = "AbortError" ∨ name = "TimeoutError" then
            .api { statusCode := 0
                   message := "Request timeout after " ++ toString timeoutMs ++ "ms"
                   retryAfterMs := none, rateLimitRemaining := none, rateLimitReset := none }
          else .raw name
        { result := .error e, retrySleeps := [], proactive := [pd], attemptsMade := 1
          headersSent := [hdr], rlsFinal := rls }
    | .resp r =>
      let rls2 := updateRateLimitState rls r (times attempt)
      if r.status = 429 then
        let info := getRateLimitInfo r (times attempt)
        let waitMs := jsOrInt info.retryAfterMs (backoffDelay attempt)
        if attempt < maxRetries then
          let rest := paginatedAux maxRetries timeoutMs token server times
            (attempt + 1) fuel rls2 _lastError
          { rest with retrySleeps := waitMs :: rest.retrySleeps
                      proactive := pd :: rest.proactive
                      attemptsMade := rest.attemptsMade + 1
                      headersSent := hdr :: rest.headersSent }
        else
          { result := .error (.api { statusCode := 429, message := "Rate limit exceeded"
                                     retryAfterMs := info.retryAfterMs
                                     rateLimitRemaining := info.remaining
                                     rateLimitReset := info.reset })
            retrySleeps := [], proactive := [pd], attemptsMade := 1
            headersSent := [hdr], rlsFinal := rls2 }
      else if 500 ≤ r.status ∧ attempt < maxRetries then
        let rest := paginatedAux maxRetries timeoutMs token server times
          (attempt + 1) fuel rls2 _lastError
        { rest with retrySleeps := backoffDelay attempt :: rest.retrySleeps
                    proactive := pd :: rest.proactive
                    attemptsMade := rest.attemptsMade + 1
                    headersSent := hdr :: rest.headersSent }
      else if ¬ (200 ≤ r.status ∧ r.status < 300) then
        let info := getRateLimitInfo r (times attempt)
        { result := .error (.api { statusCode := r.status, message := errorMessageFor r
                                   retryAfterMs := info.retryAfterMs
                                   rateLimitRemaining := info.remaining
                                   rateLimitReset := info.reset })
          retrySleeps := [], proactive := [pd], attemptsMade := 1
          headersSent := [hdr], rlsFinal := rls2 }
      else
        let nextLink := parseNextLink r.linkH
        { result := .ok { items := r.itemsJson
                          nextAfter := extractAfterCursor nextLink
                          nextLink := nextLink }
          retrySleeps := [], proactive := [pd], attemptsMade := 1
          headersSent := [hdr], rlsFinal := rls2 }

/-- Model of `paginatedRequest(options)`: run the paginated retry loop from attempt 0. -/
def runPaginated (cfg : Config) (token : String) (server : Nat → FetchOutcome)
    (times : Nat → Int) (rls : Option RateLimitState) : ReqRun PaginatedResponse :=
  paginatedAux cfg.maxRetries cfg.timeoutMs token server times 0 (cfg.maxRetries + 1) rls none

deriving instance DecidableEq for Except

-- ============================================================================
-- Helper lemmas
-- ============================================================================

/-- A truthy nullable string is `some`. -/
lemma truthy_isSome {o : Option String} (h : truthy o = true) : o.isSome := by
  cases o <;> simp_all [truthy]

/-- The function `tokenFinish` returns the attempts it was given. -/
lemma tokenFinish_attempts (r : TokenResp) (nonce : Option String)
    (atts : List TokenAttempt) (now : Int) :
    (tokenFinish r nonce atts now).attempts = atts := by
  unfold tokenFinish
  split <;> rfl

/-- On success, `tokenFinish` caches with the 60-second margin. -/
lemma tokenFinish_ok (r : TokenResp) (nonce : Option String)
    (atts : List TokenAttempt) (now : Int) (tc : TokenCache)
    (h : (tokenFinish r nonce atts now).result = .ok tc) :
    tc.expiresAt = now + (r.expires_in - 60) * 1000 := by
  unfold tokenFinish at h
  split at h
  · simp only [Except.ok.injEq] at h
    rw [← h]
  · simp at h

/-- The function `tokenFinish` keeps the shared nonce truthy when it was truthy. -/
lemma tokenFinish_nonce_truthy (r : TokenResp) (nonce : Option String)
    (atts : List TokenAttempt) (now : Int) (h : truthy nonce = true) :
    truthy (tokenFinish r nonce atts now).nonce = true := by
  have hn : truthy (tokenFinishNonce r nonce) = true := by
    unfold tokenFinishNonce
    split <;> simp_all
  unfold tokenFinish
  split <;> exact hn

/-- Every token `fetchAccessToken` returns expires strictly later than its
acquisition instant, provided the server-declared lifetime exceeds the
60-second safety margin. -/
lemma fetchAccessToken_fresh (cfg : Config) (nonce0 : Option String)
    (server : Nat → TokenResp) (uuid : Nat) (now : Int)
    (hlife : ∀ k, 60 < (server k).expires_in) (tc : TokenCache)
    (h : (fetchAccessToken cfg nonce0 server uuid now).result = .ok tc) :
    now < tc.expiresAt := by
  have bound : ∀ (r : TokenResp) (nonce : Option String) (atts : List TokenAttempt),
      60 < r.expires_in → (tokenFinish r nonce atts now).result = .ok tc →
      now < tc.expiresAt := by
    intro r nonce atts hr hok
    have := tokenFinish_ok r nonce atts now tc hok
    rw [this]
    nlinarith
  simp only [fetchAccessToken] at h
  split at h
  · split at h
    · split at h
      · exact bound _ _ _ (hlife 1) h
      · exact bound _ _ _ (hlife 0) h
    · exact bound _ _ _ (hlife 0) h
  · exact bound _ _ _ (hlife 0) h

/-- Every token `getAccessToken` returns at instant `now` expires strictly
after `now`, provided every server-declared lifetime exceeds 60 seconds:
a cache hit is guarded by `now < expiresAt`, a refresh is fresh. -/
lemma getAccessToken_fresh (cfg : Config) (cache : Option TokenCache)
    (nonce0 : Option String) (server : Nat → TokenResp) (uuid : Nat) (now : Int)
    (hlife : ∀ k, 60 < (server k).expires_in) (tc : TokenCache)
    (h : (getAccessToken cfg cache nonce0 server uuid now).result = .ok tc) :
    now < tc.expiresAt := by
  have refr : ∀ (c : Option TokenCache) (f : FetchResult),
      (refreshResult c f).result = .ok tc → f.result = .ok tc := by
    intro c f hr
    unfold refreshResult at hr
    split at hr <;> simp_all
  unfold getAccessToken at h
  split at h
  · split at h
    · simp only [Except.ok.injEq] at h
      subst h
      assumption
    · exact fetchAccessToken_fresh cfg nonce0 server uuid now hlife tc (refr _ _ h)
  · exact fetchAccessToken_fresh cfg nonce0 server uuid now hlife tc (refr _ _ h)

-- ============================================================================
-- C1 — token freshness
-- ============================================================================

/-- C1 (counterexample): the claim "for every sequence of calls,
`getAccessToken` never returns a cached bearer value whose `expiresAt` is
≤ the time of use" is false as stated: when the token endpoint declares
`expires_in = 60`, the refresh path caches `expiresAt = now + 0` and
returns that entry unconditionally, so a call at instant 0 returns a
value with `expiresAt = 0 ≤ 0`. -/
theorem tokenFreshness_cex :
    ¬ (∀ (cfg : Config) (calls : List TMCall)
        (p : Int × Except String TokenCache), p ∈ runTM cfg none none calls →
        ∀ tc : TokenCache, p.2 = .ok tc → p.1 < tc.expiresAt) := by
  intro hclaim
  have h := hclaim
    { oktaDomain := "https://dev.okta.com", authServerId := none, clientId := "cid"
      scopes := ["okta.groups.read"], maxRetries := 2, timeoutMs := 5000 }
    [{ now := 0
       server := fun _ => { status := 200, bodyText := "", dpopNonceHeader := none
                            access_token := "tok", expires_in := 60 }
       uuid := 0 }]
    (0, .ok { accessToken := "tok", expiresAt := 0 })
    (by decide)
    { accessToken := "tok", expiresAt := 0 }
    rfl
  exact absurd h (by decide)

/-- C1 (amended): provided every server-declared `expires_in` in the trace
exceeds the 60-second safety margin, no `getAccessToken` call of any
sequence of calls returns a value whose `expiresAt` is ≤ its time of use;
a cached token is served from the cache only while `now < expiresAt`
(that guard is unconditional in `getAccessToken`). -/
theorem tokenFreshness_margin (cfg : Config) (cache0 : Option TokenCache)
    (nonce0 : Option String) (calls : List TMCall)
    (hlife : ∀ c ∈ calls, ∀ k, 60 < (c.server k).expires_in) :
    ∀ p ∈ runTM cfg cache0 nonce0 calls, ∀ tc : TokenCache,
      p.2 = .ok tc → p.1 < tc.expiresAt := by
  induction calls generalizing cache0 nonce0 with
  | nil => intro p hp; simp [runTM] at hp
  | cons c rest ih =>
    intro p hp tc htc
    simp only [runTM, List.mem_cons] at hp
    rcases hp with hp | hp
    · subst hp
      exact getAccessToken_fresh cfg cache0 nonce0 c.server c.uuid c.now
        (hlife c (List.mem_cons_self c rest)) tc htc
    · exact ih _ _ (fun d hd => hlife d (List.mem_cons_of_mem c hd)) p hp tc htc

/-- C1 witness: a concrete two-call trace (acquire at t=0 with
`expires_in = 3600`, reuse from cache at t=1000) in which the theorem
yields that the second call's token is unexpired at its time of use. -/
theorem tokenFreshness_margin_witness :
    (1000 : Int) < (3540000 : Int) :=
  tokenFreshness_margin
    { oktaDomain := "https://dev.okta.com", authServerId := none, clientId := "cid"
      scopes := ["okta.groups.read"], maxRetries := 2, timeoutMs := 5000 }
    none none
    [{ now := 0
       server := fun _ => { status := 200, bodyText := "", dpopNonceHeader := none
                            access_token := "tok", expires_in := 3600 }
       uuid := 0 },
     { now := 1000
       server := fun _ => { status := 200, bodyText := "", dpopNonceHeader := none
                            access_token := "tok2", expires_in := 3600 }
       uuid := 4 }]
    (by intro c hc k; fin_cases hc <;> exact (by decide : (60 : Int) < (3600 : Int)))
    (1000, .ok { accessToken := "tok", expiresAt := 3540000 })
    (by decide)
    { accessToken := "tok", expiresAt := 3540000 }
    rfl

-- ============================================================================
-- C3 — nonce adaptation in token acquisition
-- ============================================================================

/-- C3: when the token endpoint's first response is a 400 whose body
contains `use_dpop_nonce` and that carries a `DPoP-Nonce` header, exactly
one retry occurs (the transcript has exactly the two listed attempts, for
every behaviour of the endpoint on the second attempt — in particular a
second nonce challenge causes no third attempt), the retry's proof embeds
the challenge nonce, and the retry's client assertion carries a unique id
different from the first attempt's. -/
theorem nonceAdaptation (cfg : Config) (nonce0 : Option String)
    (server : Nat → TokenResp) (uuid : Nat) (now : Int) (r1 : TokenResp) (n : String)
    (h0 : server 0 = r1) (hs : r1.status = 400)
    (hb : strContains r1.bodyText "use_dpop_nonce" = true)
    (hn : r1.dpopNonceHeader = some n) (hne : n ≠ "") :
    (fetchAccessToken cfg nonce0 server uuid now).attempts =
      [{ assertion := buildClientAssertion cfg uuid now
         proof := createDPoPProof nonce0 (uuid + 1) now "POST" (tokenEndpoint cfg) none none },
       { assertion := buildClientAssertion cfg (uuid + 2) now
         proof := createDPoPProof (some n) (uuid + 3) now "POST" (tokenEndpoint cfg) none (some n) }]
    ∧ (createDPoPProof (some n) (uuid + 3) now "POST" (tokenEndpoint cfg) none (some n)).nonce
        = some n
    ∧ (buildClientAssertion cfg (uuid + 2) now).jti ≠ (buildClientAssertion cfg uuid now).jti := by
  refine ⟨?_, ?_, ?_⟩
  · simp [fetchAccessToken, h0, hs, hb, hn, hne, tokenFinish_attempts]
  · simp [createDPoPProof, truthy, hne]
  · simp [buildClientAssertion]

/-- C3 witness: a concrete challenge-then-success exchange submits exactly
two attempts. -/
theorem nonceAdaptation_witness :
    (fetchAccessToken
      { oktaDomain := "https://dev.okta.com", authServerId := some "aus1", clientId := "cid"
        scopes := ["okta.groups.read"], maxRetries := 2, timeoutMs := 5000 }
      none
      (fun k => if k = 0 then
        { status := 400, bodyText := "err use_dpop_nonce", dpopNonceHeader := some "nonceA"
          access_token := "", expires_in := 0 }
      else
        { status := 200, bodyText := "", dpopNonceHeader := none
          access_token := "tok", expires_in := 3600 })
      0 0).attempts.length = 2 := by
  rw [(nonceAdaptation _ none _ 0 0
    { status := 400, bodyText := "err use_dpop_nonce", dpopNonceHeader := some "nonceA"
      access_token := "", expires_in := 0 }
    "nonceA" rfl rfl (by decide) rfl (by decide)).1]
  rfl

-- ============================================================================
-- C10 — the shared replay nonce, once set, is never cleared
-- ============================================================================

/-- C10: `updateDPoPNonce(null)` leaves the stored nonce unchanged; every
write path of the shared nonce (caller update, and both write points
inside `fetchAccessToken`: the challenge branch and the final-response
header) preserves truthiness once it holds; and any proof built while the
shared nonce is set embeds some nonce. -/
theorem nonceNeverCleared :
    (∀ st : Option String, updateDPoPNonce st none = st)
    ∧ (∀ (st v : Option String), truthy st = true → truthy (updateDPoPNonce st v) = true)
    ∧ (∀ (cfg : Config) (n0 : Option String) (server : Nat → TokenResp) (uuid : Nat) (now : Int),
        truthy n0 = true → truthy (fetchAccessToken cfg n0 server uuid now).nonce = true)
    ∧ (∀ (sN : Option String) (uuid : Nat) (now : Int) (m u : String)
        (tokOpt expl : Option String), truthy sN = true →
        ((createDPoPProof sN uuid now m u tokOpt expl).nonce).isSome = true) := by
  refine ⟨?_, ?_, ?_, ?_⟩
  · intro st
    simp [updateDPoPNonce, truthy]
  · intro st v h
    unfold updateDPoPNonce
    split
    · assumption
    · exact h
  · intro cfg n0 server uuid now h
    simp only [fetchAccessToken]
    split
    · split
      · split
        · apply tokenFinish_nonce_truthy
          simp_all [truthy]
        · exact tokenFinish_nonce_truthy _ _ _ _ h
      · exact tokenFinish_nonce_truthy _ _ _ _ h
    · exact tokenFinish_nonce_truthy _ _ _ _ h
  · intro sN uuid now m u tokOpt expl h
    simp only [createDPoPProof]
    by_cases he : truthy expl = true
    · simp [he, truthy_isSome he]
    · simp [he, h, truthy_isSome h]

/-- C10 witness: a concrete acquisition started with a set nonce ends with
a set nonce. -/
theorem nonceNeverCleared_witness :
    truthy (fetchAccessToken
      { oktaDomain := "https://dev.okta.com", authServerId := none, clientId := "cid"
        scopes := ["okta.groups.read"], maxRetries := 2, timeoutMs := 5000 }
      (some "N0")
      (fun _ => { status := 200, bodyText := "", dpopNonceHeader := none
                  access_token := "tok", expires_in := 3600 })
      0 0).nonce = true :=
  nonceNeverCleared.2.2.1 _ (some "N0") _ 0 0 (by decide)

-- ============================================================================
-- C4 — single-flight refresh
-- ============================================================================

/-- C4 (counterexample): two concurrent callers that both run their cache
check against the empty cache before either exchange resolves trigger two
token exchanges, not one, and receive two different tokens — there is no
single-flight guard in `getAccessToken`. -/
theorem singleFlight_cex :
    (runConc concInit
      [CStep.start 0 0, CStep.start 1 0,
       CStep.complete 0 { status := 200, bodyText := "", dpopNonceHeader := none
                          access_token := "tokA", expires_in := 3600 } 0,
       CStep.complete 1 { status := 200, bodyText := "", dpopNonceHeader := none
                          access_token := "tokB", expires_in := 3600 } 0]).exchanges = 2
    ∧ (runConc concInit
      [CStep.start 0 0, CStep.start 1 0,
       CStep.complete 0 { status := 200, bodyText := "", dpopNonceHeader := none
                          access_token := "tokA", expires_in := 3600 } 0,
       CStep.complete 1 { status := 200, bodyText := "", dpopNonceHeader := none
                          access_token := "tokB", expires_in := 3600 } 0]).returns =
      [(0, { accessToken := "tokA", expiresAt := 3540000 }),
       (1, { accessToken := "tokB", expiresAt := 3540000 })] := by
  exact ⟨by decide, by decide⟩

/-- Starts never write the cache; each start against an empty cache takes
the miss branch and launches one more exchange. -/
lemma runConc_starts_exchanges (t : Int) (l : List Nat) :
    ∀ s : ConcState, s.cache = none →
      (runConc s (l.map (fun i => CStep.start i t))).exchanges = s.exchanges + l.length
      ∧ (runConc s (l.map (fun i => CStep.start i t))).cache = none := by
  induction l with
  | nil => intro s hs; simp [runConc, hs]
  | cons i rest ih =>
    intro s hs
    have hstep : concStep s (CStep.start i t) =
        { s with pending := s.pending ++ [i], exchanges := s.exchanges + 1 } := by
      unfold concStep
      rw [hs]
    have h2 := ih { s with pending := s.pending ++ [i], exchanges := s.exchanges + 1 } hs
    simp only [runConc, List.map_cons, List.foldl_cons, hstep] at h2 ⊢
    refine ⟨?_, h2.2⟩
    rw [h2.1]
    simp [Nat.add_assoc, Nat.add_comm 1 rest.length]

/-- C4 (amended): M concurrent callers that all invoke `getAccessToken`
against the empty cache before any acquisition completes trigger M
underlying token exchanges — one per caller, not one in total. -/
theorem concurrentCallers_oneExchangeEach (M : Nat) (t : Int) :
    (runConc concInit ((List.range M).map (fun i => CStep.start i t))).exchanges = M := by
  have h := runConc_starts_exchanges t (List.range M) concInit rfl
  simpa [concInit] using h.1

-- ============================================================================
-- Executor trace lemmas
-- ============================================================================

/-- Every attempt of the `request` retry loop sends exactly the three
headers built in the source (`Authorization: Bearer`, `Accept`,
`Content-Type`). -/
lemma requestAux_headers (maxRetries timeoutMs : Nat) (token : String)
    (server : Nat → FetchOutcome) (times : Nat → Int) :
    ∀ (fuel attempt : Nat) (rls : Option RateLimitState) (le : Option ReqError)
      (h : List (String × String)),
      h ∈ (requestAux maxRetries timeoutMs token server times attempt fuel rls le).headersSent →
      h = resourceRequestHeaders token := by
  intro fuel
  induction fuel with
  | zero =>
    intro attempt rls le h hh
    simp [requestAux] at hh
  | succ f ih =>
    intro attempt rls le h hh
    rcases hserv : server attempt with r | name
    · simp only [requestAux, hserv] at hh
      split_ifs at hh <;>
        simp only [List.mem_cons, List.mem_singleton, List.not_mem_nil, or_false] at hh <;>
        first
          | exact hh
          | (rcases hh with rfl | hh <;> first | rfl | exact ih _ _ _ _ hh)
    · simp only [requestAux, hserv] at hh
      split_ifs at hh <;>
        simp only [List.mem_cons, List.mem_singleton, List.not_mem_nil, or_false] at hh <;>
        first
          | exact hh
          | (rcases hh with rfl | hh <;> first | rfl | exact ih _ _ _ _ hh)

/-- Every attempt of the `paginatedRequest` retry loop sends exactly the
three headers built in the source. -/
lemma paginatedAux_headers (maxRetries timeoutMs : Nat) (token : String)
    (server : Nat → FetchOutcome) (times : Nat → Int) :
    ∀ (fuel attempt : Nat) (rls : Option RateLimitState) (le : Option ReqError)
      (h : List (String × String)),
      h ∈ (paginatedAux maxRetries timeoutMs token server times attempt fuel rls le).headersSent →
      h = resourceRequestHeaders token := by
  intro fuel
  induction fuel with
  | zero =>
    intro attempt rls le h hh
    simp [paginatedAux] at hh
  | succ f ih =>
    intro attempt rls le h hh
    rcases hserv : server attempt with r | name
    · simp only [paginatedAux, hserv] at hh
      split_ifs at hh <;>
        simp only [List.mem_cons, List.mem_singleton, List.not_mem_nil, or_false] at hh <;>
        first
          | exact hh
          | (rcases hh with rfl | hh <;> first | rfl | exact ih _ _ _ _ hh)
    · simp only [paginatedAux, hserv] at hh
      split_ifs at hh <;>
        simp only [List.mem_cons, List.mem_singleton, List.not_mem_nil, or_false] at hh <;>
        first
          | exact hh
          | (rcases hh with rfl | hh <;> first | rfl | exact ih _ _ _ _ hh)

/-- One loop iteration on a 429 response with attempts remaining: sleep
the server hint or the backoff, then continue. -/
lemma requestAux_step_429 (maxRetries timeoutMs : Nat) (token : String)
    (server : Nat → FetchOutcome) (times : Nat → Int) (f attempt : Nat)
    (rls : Option RateLimitState) (le : Option ReqError) (r : HttpResp)
    (hserv : server attempt = .resp r) (h429 : r.status = 429) (hlt : attempt < maxRetries) :
    requestAux maxRetries timeoutMs token server times attempt (f + 1) rls le
      = { requestAux maxRetries timeoutMs token server times (attempt + 1) f
            (updateRateLimitState rls r (times attempt)) le with
          retrySleeps := jsOrInt (getRateLimitInfo r (times attempt)).retryAfterMs
              (backoffDelay attempt)
            :: (requestAux maxRetries timeoutMs token server times (attempt + 1) f
                  (updateRateLimitState rls r (times attempt)) le).retrySleeps
          proactive := proactiveRateLimitDelay rls (times attempt)
            :: (requestAux maxRetries timeoutMs token server times (attempt + 1) f
                  (updateRateLimitState rls r (times attempt)) le).proactive
          attemptsMade := (requestAux maxRetries timeoutMs token server times (attempt + 1) f
                  (updateRateLimitState rls r (times attempt)) le).attemptsMade + 1
          headersSent := resourceRequestHeaders token
            :: (requestAux maxRetries timeoutMs token server times (attempt + 1) f
                  (updateRateLimitState rls r (times attempt)) le).headersSent } := by
  conv_lhs => rw [requestAux]
  simp [hserv, h429, hlt]

/-- One loop iteration on a 5xx response with attempts remaining: sleep
the backoff, then continue. -/
lemma requestAux_step_5xx (maxRetries timeoutMs : Nat) (token : String)
    (server : Nat → FetchOutcome) (times : Nat → Int) (f attempt : Nat)
    (rls : Option RateLimitState) (le : Option ReqError) (r : HttpResp)
    (hserv : server attempt = .resp r) (h5xx : 500 ≤ r.status) (hlt : attempt < maxRetries) :
    requestAux maxRetries timeoutMs token server times attempt (f + 1) rls le
      = { requestAux maxRetries timeoutMs token server times (attempt + 1) f
            (updateRateLimitState rls r (times attempt)) le with
          retrySleeps := backoffDelay attempt
            :: (requestAux maxRetries timeoutMs token server times (attempt + 1) f
                  (updateRateLimitState rls r (times attempt)) le).retrySleeps
          proactive := proactiveRateLimitDelay rls (times attempt)
            :: (requestAux maxRetries timeoutMs token server times (attempt + 1) f
                  (updateRateLimitState rls r (times attempt)) le).proactive
          attemptsMade := (requestAux maxRetries timeoutMs token server times (attempt + 1) f
                  (updateRateLimitState rls r (times attempt)) le).attemptsMade + 1
          headersSent := resourceRequestHeaders token
            :: (requestAux maxRetries timeoutMs token server times (attempt + 1) f
                  (updateRateLimitState rls r (times attempt)) le).headersSent } := by
  have hne : ¬ r.status = 429 := by omega
  conv_lhs => rw [requestAux]
  simp [hserv, hne, h5xx, hlt]

/-- One loop iteration on a transport fault with attempts remaining:
record the error and continue immediately — no sleep. -/
lemma requestAux_step_fault (maxRetries timeoutMs : Nat) (token : String)
    (server : Nat → FetchOutcome) (times : Nat → Int) (f attempt : Nat)
    (rls : Option RateLimitState) (le : Option ReqError) (name : String)
    (hserv : server attempt = .fault name) (hlt : attempt < maxRetries) :
    requestAux maxRetries timeoutMs token server times attempt (f + 1) rls le
      = { requestAux maxRetries timeoutMs token server times (attempt + 1) f
            rls (some (.raw name)) with
          proactive := proactiveRateLimitDelay rls (times attempt)
            :: (requestAux maxRetries timeoutMs token server times (attempt + 1) f
                  rls (some (.raw name))).proactive
          attemptsMade := (requestAux maxRetries timeoutMs token server times (attempt + 1) f
                  rls (some (.raw name))).attemptsMade + 1
          headersSent := resourceRequestHeaders token
            :: (requestAux maxRetries timeoutMs token server times (attempt + 1) f
                  rls (some (.raw name))).headersSent } := by
  conv_lhs => rw [requestAux]
  simp [hserv, hlt]

/-- With every attempt answered 429 and no reset header (no server retry
hint), the retry sleeps of the loop are exactly the exponential backoff
values for the attempt indices it retries. -/
lemma requestAux_sleeps_429 (maxRetries timeoutMs : Nat) (token : String)
    (times : Nat → Int) (r : HttpResp) (h429 : r.status = 429) (hreset : r.resetH = none) :
    ∀ (fuel attempt : Nat) (rls : Option RateLimitState) (le : Option ReqError),
      attempt + fuel = maxRetries + 1 →
      (requestAux maxRetries timeoutMs token (fun _ => .resp r) times
        attempt fuel rls le).retrySleeps
        = (List.range' attempt (fuel - 1)).map backoffDelay := by
  intro fuel
  induction fuel with
  | zero =>
    intro attempt rls le hsum
    simp [requestAux]
  | succ f ih =>
    intro attempt rls le hsum
    by_cases hlt : attempt < maxRetries
    · rw [requestAux_step_429 maxRetries timeoutMs token _ times f attempt rls le r rfl h429 hlt]
      simp only [ih (attempt + 1) _ le (by omega)]
      have hf : ∃ g, f = g + 1 := ⟨f - 1, by omega⟩
      obtain ⟨g, rfl⟩ := hf
      simp [getRateLimitInfo, hreset, jsOrInt, List.range'_succ]
    · have hf : f = 0 := by omega
      subst hf
      conv_lhs => rw [requestAux]
      simp [h429, hlt]

/-- With every attempt answered by a 5xx response, the retry sleeps of the
loop are exactly the exponential backoff values for the attempt indices it
retries (the final attempt's 5xx is surfaced without a further sleep). -/
lemma requestAux_sleeps_5xx (maxRetries timeoutMs : Nat) (token : String)
    (times : Nat → Int) (r : HttpResp) (h5xx : 500 ≤ r.status) :
    ∀ (fuel attempt : Nat) (rls : Option RateLimitState) (le : Option ReqError),
      attempt + fuel = maxRetries + 1 →
      (requestAux maxRetries timeoutMs token (fun _ => .resp r) times
        attempt fuel rls le).retrySleeps
        = (List.range' attempt (fuel - 1)).map backoffDelay := by
  have hne : ¬ r.status = 429 := by omega
  have hnok : ¬ (200 ≤ r.status ∧ r.status < 300) := by omega
  intro fuel
  induction fuel with
  | zero =>
    intro attempt rls le hsum
    simp [requestAux]
  | succ f ih =>
    intro attempt rls le hsum
    by_cases hlt : attempt < maxRetries
    · rw [requestAux_step_5xx maxRetries timeoutMs token _ times f attempt rls le r rfl h5xx hlt]
      simp only [ih (attempt + 1) _ le (by omega)]
      have hf : ∃ g, f = g + 1 := ⟨f - 1, by omega⟩
      obtain ⟨g, rfl⟩ := hf
      simp [List.range'_succ]
    · have hf : f = 0 := by omega
      subst hf
      conv_lhs => rw [requestAux]
      simp [hne, hlt, hnok]

/-- With every attempt failing with the same transport fault, the loop
performs one attempt per remaining iteration with no retry sleep at all,
and surfaces the timeout-specific `OktaApiError` for abort/timeout faults
or rethrows the raw error otherwise. -/
lemma requestAux_fault_run (maxRetries timeoutMs : Nat) (token : String)
    (times : Nat → Int) (name : String) :
    ∀ (fuel attempt : Nat) (rls : Option RateLimitState) (le : Option ReqError),
      attempt + fuel = maxRetries + 1 → 1 ≤ fuel →
      (requestAux maxRetries timeoutMs token (fun _ => .fault name) times
        attempt fuel rls le).retrySleeps = []
      ∧ (requestAux maxRetries timeoutMs token (fun _ => .fault name) times
        attempt fuel rls le).attemptsMade = fuel
      ∧ (requestAux maxRetries timeoutMs token (fun _ => .fault name) times
        attempt fuel rls le).result = .error
          (if name = "AbortError" ∨ name = "TimeoutError" then
            .api { statusCode := 0
                   message := "Request timeout after " ++ toString timeoutMs ++ "ms"
                   retryAfterMs := none, rateLimitRemaining := none, rateLimitReset := none }
          else .raw name) := by
  intro fuel
  induction fuel with
  | zero =>
    intro attempt rls le hsum hone
    omega
  | succ f ih =>
    intro attempt rls le hsum hone
    by_cases hlt : attempt < maxRetries
    · have hf1 : 1 ≤ f := by omega
      have h3 := ih (attempt + 1) rls (some (.raw name)) (by omega) hf1
      rw [requestAux_step_fault maxRetries timeoutMs token _ times f attempt rls le name rfl hlt]
      exact ⟨h3.1, by simp [h3.2.1], h3.2.2⟩
    · have hf : f = 0 := by omega
      subst hf
      refine ⟨?_, ?_, ?_⟩ <;> (conv_lhs => rw [requestAux]) <;> simp [hlt]

/-- With every attempt up to `maxRetries` answered 429, the loop sleeps
once per retried attempt, issues one HTTP attempt per iteration, and
terminates with the `Rate limit exceeded` error built from the final
response's rate-limit info. -/
lemma requestAux_429_run (maxRetries timeoutMs : Nat) (token : String)
    (server : Nat → FetchOutcome) (times : Nat → Int)
    (hall : ∀ k, k ≤ maxRetries → ∃ r, server k = FetchOutcome.resp r ∧ r.status = 429) :
    ∀ (fuel attempt : Nat) (rls : Option RateLimitState) (le : Option ReqError),
      attempt + fuel = maxRetries + 1 → 1 ≤ fuel →
      (requestAux maxRetries timeoutMs token server times attempt fuel rls le).retrySleeps.length
        = fuel - 1
      ∧ (requestAux maxRetries timeoutMs token server times attempt fuel rls le).attemptsMade
        = fuel
      ∧ ∀ rF, server maxRetries = .resp rF →
          (requestAux maxRetries timeoutMs token server times attempt fuel rls le).result
            = .error (.api { statusCode := 429, message := "Rate limit exceeded"
                             retryAfterMs := (getRateLimitInfo rF (times maxRetries)).retryAfterMs
                             rateLimitRemaining := rF.remainingH
                             rateLimitReset := rF.resetH }) := by
  intro fuel
  induction fuel with
  | zero =>
    intro attempt rls le hsum hone
    omega
  | succ f ih =>
    intro attempt rls le hsum hone
    obtain ⟨r, hserv, h429⟩ := hall attempt (by omega)
    by_cases hlt : attempt < maxRetries
    · have hf1 : 1 ≤ f := by omega
      have h3 := ih (attempt + 1) (updateRateLimitState rls r (times attempt)) le (by omega) hf1
      rw [requestAux_step_429 maxRetries timeoutMs token server times f attempt rls le r
        hserv h429 hlt]
      refine ⟨?_, by simp [h3.2.1], h3.2.2⟩
      simp only [List.length_cons, h3.1]
      omega
    · have hf : f = 0 := by omega
      subst hf
      have hattempt : attempt = maxRetries := by omega
      subst hattempt
      refine ⟨?_, ?_, ?_⟩
      · conv_lhs => rw [requestAux]
        simp [hserv, h429, hlt]
      · conv_lhs => rw [requestAux]
        simp [hserv, h429, hlt]
      · intro rF hrF
        rw [hserv] at hrF
        cases hrF
        conv_lhs => rw [requestAux]
        simp [hserv, h429, hlt, getRateLimitInfo]

-- ============================================================================
-- C5 — retry exhaustion
-- ============================================================================

/-- C5: with `maxRetries = 2`, three consecutive 429 responses cause
exactly two retry-sleeps and three HTTP attempts (no fourth), and the run
terminates with a thrown `OktaApiError` of status 429 — classified
`rate_limit_error` — carrying the retry hint and rate-limit snapshot of
the final response. -/
theorem retryExhaustion (cfg : Config) (token : String) (server : Nat → FetchOutcome)
    (times : Nat → Int) (rls : Option RateLimitState) (r0 r1 r2 : HttpResp)
    (hm : cfg.maxRetries = 2)
    (h0 : server 0 = .resp r0) (h1 : server 1 = .resp r1) (h2 : server 2 = .resp r2)
    (hs0 : r0.status = 429) (hs1 : r1.status = 429) (hs2 : r2.status = 429) :
    (runRequest cfg token server times rls).attemptsMade = 3
    ∧ (runRequest cfg token server times rls).retrySleeps.length = 2
    ∧ (runRequest cfg token server times rls).result
        = .error (.api { statusCode := 429, message := "Rate limit exceeded"
                         retryAfterMs := (getRateLimitInfo r2 (times 2)).retryAfterMs
                         rateLimitRemaining := r2.remainingH, rateLimitReset := r2.resetH })
    ∧ getErrorType { statusCode := 429, message := "Rate limit exceeded"
                     retryAfterMs := (getRateLimitInfo r2 (times 2)).retryAfterMs
                     rateLimitRemaining := r2.remainingH, rateLimitReset := r2.resetH }
        = "rate_limit_error" := by
  have hall : ∀ k, k ≤ cfg.maxRetries →
      ∃ r, server k = FetchOutcome.resp r ∧ r.status = 429 := by
    rw [hm]
    intro k hk
    interval_cases k
    · exact ⟨r0, h0, hs0⟩
    · exact ⟨r1, h1, hs1⟩
    · exact ⟨r2, h2, hs2⟩
  have hrun := requestAux_429_run cfg.maxRetries cfg.timeoutMs token server times hall
    (cfg.maxRetries + 1) 0 rls none (by omega) (by omega)
  have hr2 : server cfg.maxRetries = FetchOutcome.resp r2 := by rw [hm]; exact h2
  have hres := hrun.2.2 r2 hr2
  have ht : times cfg.maxRetries = times 2 := by rw [hm]
  rw [ht] at hres
  unfold runRequest
  refine ⟨by rw [hrun.2.1, hm], by rw [hrun.1, hm], hres, by rfl⟩

/-- C5 witness: a concrete all-429 endpoint with `maxRetries = 2` yields
three attempts and two retry-sleeps. -/
theorem retryExhaustion_witness :
    (runRequest
      { oktaDomain := "https://dev.okta.com", authServerId := none, clientId := "cid"
        scopes := [], maxRetries := 2, timeoutMs := 5000 }
      "tok"
      (fun _ => .resp { status := 429, statusText := "Too Many Requests", limitH := some 600
                        remainingH := some 0, resetH := some 50, linkH := none
                        bodyText := "", errorSummaryB := none, itemsJson := [] })
      (fun _ => 0) none).attemptsMade = 3
    ∧ (runRequest
      { oktaDomain := "https://dev.okta.com", authServerId := none, clientId := "cid"
        scopes := [], maxRetries := 2, timeoutMs := 5000 }
      "tok"
      (fun _ => .resp { status := 429, statusText := "Too Many Requests", limitH := some 600
                        remainingH := some 0, resetH := some 50, linkH := none
                        bodyText := "", errorSummaryB := none, itemsJson := [] })
      (fun _ => 0) none).retrySleeps.length = 2 := by
  have h := retryExhaustion
    { oktaDomain := "https://dev.okta.com", authServerId := none, clientId := "cid"
      scopes := [], maxRetries := 2, timeoutMs := 5000 }
    "tok"
    (fun _ => .resp { status := 429, statusText := "Too Many Requests", limitH := some 600
                      remainingH := some 0, resetH := some 50, linkH := none
                      bodyText := "", errorSummaryB := none, itemsJson := [] })
    (fun _ => 0) none
    { status := 429, statusText := "Too Many Requests", limitH := some 600
      remainingH := some 0, resetH := some 50, linkH := none
      bodyText := "", errorSummaryB := none, itemsJson := [] }
    { status := 429, statusText := "Too Many Requests", limitH := some 600
      remainingH := some 0, resetH := some 50, linkH := none
      bodyText := "", errorSummaryB := none, itemsJson := [] }
    { status := 429, statusText := "Too Many Requests", limitH := some 600
      remainingH := some 0, resetH := some 50, linkH := none
      bodyText := "", errorSummaryB := none, itemsJson := [] }
    rfl rfl rfl rfl rfl rfl rfl
  exact ⟨h.1, h.2.1⟩

-- ============================================================================
-- C6 — backoff bound
-- ============================================================================

/-- C6: on a 429 path with no server retry hint, and on every 5xx path,
the sleep before retrying attempt k equals `min(1000·2^k, 30000)` ms: the
full sleep trace of the loop is that formula mapped over the retried
attempt indices. -/
theorem backoffBound :
    (∀ (cfg : Config) (token : String) (times : Nat → Int) (rls : Option RateLimitState)
      (r : HttpResp), r.status = 429 → r.resetH = none →
      (runRequest cfg token (fun _ => .resp r) times rls).retrySleeps
        = (List.range cfg.maxRetries).map (fun k => min (1000 * 2 ^ k) 30000))
    ∧ (∀ (cfg : Config) (token : String) (times : Nat → Int) (rls : Option RateLimitState)
      (r : HttpResp), 500 ≤ r.status →
      (runRequest cfg token (fun _ => .resp r) times rls).retrySleeps
        = (List.range cfg.maxRetries).map (fun k => min (1000 * 2 ^ k) 30000)) := by
  constructor
  · intro cfg token times rls r h429 hreset
    unfold runRequest
    rw [requestAux_sleeps_429 cfg.maxRetries cfg.timeoutMs token times r h429 hreset
      (cfg.maxRetries + 1) 0 rls none (by omega)]
    simp [List.range_eq_range', backoffDelay]
  · intro cfg token times rls r h5xx
    unfold runRequest
    rw [requestAux_sleeps_5xx cfg.maxRetries cfg.timeoutMs token times r h5xx
      (cfg.maxRetries + 1) 0 rls none (by omega)]
    simp [List.range_eq_range', backoffDelay]

/-- C6 witness: with `maxRetries = 6`, a hint-less 429 endpoint produces
the capped exponential backoff trace 1000, 2000, 4000, 8000, 16000,
30000. -/
theorem backoffBound_witness :
    (runRequest
      { oktaDomain := "https://dev.okta.com", authServerId := none, clientId := "cid"
        scopes := [], maxRetries := 6, timeoutMs := 5000 }
      "tok"
      (fun _ => .resp { status := 429, statusText := "", limitH := none, remainingH := none
                        resetH := none, linkH := none, bodyText := "", errorSummaryB := none
                        itemsJson := [] })
      (fun _ => 0) none).retrySleeps
      = (List.range 6).map (fun k => min (1000 * 2 ^ k) 30000)
    ∧ (List.range 6).map (fun k => (min (1000 * 2 ^ k) 30000 : Int))
      = [1000, 2000, 4000, 8000, 16000, 30000] := by
  constructor
  · exact backoffBound.1
      { oktaDomain := "https://dev.okta.com", authServerId := none, clientId := "cid"
        scopes := [], maxRetries := 6, timeoutMs := 5000 }
      "tok" (fun _ => 0) none
      { status := 429, statusText := "", limitH := none, remainingH := none
        resetH := none, linkH := none, bodyText := "", errorSummaryB := none
        itemsJson := [] }
      rfl rfl
  · decide

-- ============================================================================
-- C7 — network/timeout faults
-- ============================================================================

/-- C7 (counterexample): the claim that transport faults are "retried
following the same backoff schedule as a 5xx response" is false: with
`maxRetries = 2`, an endpoint that times out on every attempt produces an
empty retry-sleep trace, while the 5xx schedule for the same
configuration sleeps 1000 then 2000 ms — the fault path retries
immediately. (The exhaustion half holds: the run surfaces the
timeout-specific error.) -/
theorem networkFault_cex :
    (runRequest
      { oktaDomain := "https://dev.okta.com", authServerId := none, clientId := "cid"
        scopes := [], maxRetries := 2, timeoutMs := 5000 }
      "tok" (fun _ => .fault "TimeoutError") (fun _ => 0) none).retrySleeps = []
    ∧ (runRequest
      { oktaDomain := "https://dev.okta.com", authServerId := none, clientId := "cid"
        scopes := [], maxRetries := 2, timeoutMs := 5000 }
      "tok"
      (fun _ => .resp { status := 500, statusText := "", limitH := none, remainingH := none
                        resetH := none, linkH := none, bodyText := "", errorSummaryB := none
                        itemsJson := [] })
      (fun _ => 0) none).retrySleeps = [1000, 2000]
    ∧ (runRequest
      { oktaDomain := "https://dev.okta.com", authServerId := none, clientId := "cid"
        scopes := [], maxRetries := 2, timeoutMs := 5000 }
      "tok" (fun _ => .fault "TimeoutError") (fun _ => 0) none).result
        = .error (.api { statusCode := 0, message := "Request timeout after 5000ms"
                         retryAfterMs := none, rateLimitRemaining := none
                         rateLimitReset := none })
    ∧ ([] : List Int) ≠ [1000, 2000] := by
  refine ⟨by decide, by decide, by decide, by decide⟩

/-- C7 (amended): while attempts remain, a transport fault is retried
immediately with no backoff sleep (only the 429/5xx paths sleep); when
attempts are exhausted, an `AbortError`/`TimeoutError` fault surfaces the
timeout-specific `OktaApiError` (status 0, "Request timeout after
{timeoutMs}ms") and any other transport fault is rethrown as-is. -/
theorem networkRetryNoBackoff (cfg : Config) (token : String) (times : Nat → Int)
    (rls : Option RateLimitState) (name : String) :
    (runRequest cfg token (fun _ => .fault name) times rls).retrySleeps = []
    ∧ (runRequest cfg token (fun _ => .fault name) times rls).attemptsMade
        = cfg.maxRetries + 1
    ∧ (runRequest cfg token (fun _ => .fault name) times rls).result = .error
        (if name = "AbortError" ∨ name = "TimeoutError" then
          .api { statusCode := 0
                 message := "Request timeout after " ++ toString cfg.timeoutMs ++ "ms"
                 retryAfterMs := none, rateLimitRemaining := none, rateLimitReset := none }
        else .raw name) := by
  unfold runRequest
  exact requestAux_fault_run cfg.maxRetries cfg.timeoutMs token times name
    (cfg.maxRetries + 1) 0 rls none (by omega) (by omega)

-- ============================================================================
-- C2 — resource-request headers
-- ============================================================================

/-- C2: every HTTP attempt issued by `request` and by `paginatedRequest`
sends `Authorization: Bearer <token>` — not `Authorization: DPoP <token>`
— and sends no `DPoP` proof header at all. -/
theorem resourceHeadersBearerNoDPoP (cfg : Config) (token : String)
    (server : Nat → FetchOutcome) (times : Nat → Int) (rls : Option RateLimitState) :
    (∀ h ∈ (runRequest cfg token server times rls).headersSent,
      List.lookup "Authorization" h = some ("Bearer " ++ token)
      ∧ List.lookup "DPoP" h = none
      ∧ "Bearer " ++ token ≠ "DPoP " ++ token)
    ∧ (∀ h ∈ (runPaginated cfg token server times rls).headersSent,
      List.lookup "Authorization" h = some ("Bearer " ++ token)
      ∧ List.lookup "DPoP" h = none) := by
  have hne : "Bearer " ++ token ≠ "DPoP " ++ token := by
    intro heq
    have hlen := congrArg String.length heq
    rw [String.length_append, String.length_append] at hlen
    have h7 : "Bearer ".length = 7 := rfl
    have h5 : "DPoP ".length = 5 := rfl
    rw [h7, h5] at hlen
    omega
  constructor
  · intro h hh
    have heq := requestAux_headers cfg.maxRetries cfg.timeoutMs token server times
      (cfg.maxRetries + 1) 0 rls none h hh
    subst heq
    exact ⟨rfl, rfl, hne⟩
  · intro h hh
    have heq := paginatedAux_headers cfg.maxRetries cfg.timeoutMs token server times
      (cfg.maxRetries + 1) 0 rls none h hh
    subst heq
    exact ⟨rfl, rfl⟩

/-- C2 witness: the headers of a concrete successful `GET /api/v1/groups`
attempt carry `Bearer tok` and no `DPoP` header. -/
theorem resourceHeadersBearerNoDPoP_witness :
    List.lookup "Authorization" (resourceRequestHeaders "tok") = some ("Bearer " ++ "tok")
    ∧ List.lookup "DPoP" (resourceRequestHeaders "tok") = none
    ∧ "Bearer " ++ "tok" ≠ "DPoP " ++ "tok" :=
  (resourceHeadersBearerNoDPoP
    { oktaDomain := "https://dev.okta.com", authServerId := none, clientId := "cid"
      scopes := [], maxRetries := 0, timeoutMs := 5000 }
    "tok"
    (fun _ => .resp { status := 200, statusText := "OK", limitH := none, remainingH := none
                      resetH := none, linkH := none, bodyText := "[]", errorSummaryB := none
                      itemsJson := [] })
    (fun _ => 0) none).1 (resourceRequestHeaders "tok") (by decide)

-- ============================================================================
-- C8 — proactive throttling
-- ============================================================================

/-- C8: `proactiveRateLimitDelay` is zero when no state is tracked or the
remaining count is at or above `max(5, 10% of limit)`; below that
threshold (with the reset still ahead) it spreads the time until reset
across the remaining budget, capped at 2000 ms; in particular for
limit=100, remaining=5, reset 10 s ahead it is exactly 2000 ms — positive
and ≤ 2000. -/
theorem proactiveThrottle :
    (∀ now : Int, proactiveRateLimitDelay none now = 0)
    ∧ (∀ (s : RateLimitState) (now : Int),
        max 5 ((s.limit : ℚ) / 10) ≤ (s.remaining : ℚ) →
        proactiveRateLimitDelay (some s) now = 0)
    ∧ (∀ (s : RateLimitState) (now : Int),
        (s.remaining : ℚ) < max 5 ((s.limit : ℚ) / 10) →
        0 < (s.reset : ℚ) * 1000 - (now : ℚ) →
        proactiveRateLimitDelay (some s) now
          = min (((s.reset : ℚ) * 1000 - (now : ℚ)) / max 1 (s.remaining : ℚ)) 2000
        ∧ proactiveRateLimitDelay (some s) now ≤ 2000)
    ∧ proactiveRateLimitDelay
        (some { limit := 100, remaining := 5, reset := 10, lastUpdated := 0 }) 0 = 2000
    ∧ (0 : ℚ) < proactiveRateLimitDelay
        (some { limit := 100, remaining := 5, reset := 10, lastUpdated := 0 }) 0 := by
  have hs : (((5 : Int) : ℚ)) < max 5 (((100 : Int) : ℚ) / 10) := by norm_num
  have ht : (0 : ℚ) < ((10 : Int) : ℚ) * 1000 - ((0 : Int) : ℚ) := by norm_num
  have hval : proactiveRateLimitDelay
      (some { limit := 100, remaining := 5, reset := 10, lastUpdated := 0 }) 0 = 2000 := by
    simp only [proactiveRateLimitDelay]
    rw [if_pos hs, if_pos ht]
    norm_num
  refine ⟨?_, ?_, ?_, hval, by rw [hval]; norm_num⟩
  · intro now
    rfl
  · intro s now h
    simp only [proactiveRateLimitDelay]
    rw [if_neg (not_lt.mpr h)]
  · intro s now h1 h2
    simp only [proactiveRateLimitDelay]
    rw [if_pos h1, if_pos h2]
    exact ⟨rfl, min_le_right _ _⟩

/-- C8 witness: the theorem's below-threshold branch applied at limit=100,
remaining=5, reset 10 s ahead gives a delay of at most 2000 ms. -/
theorem proactiveThrottle_witness :
    proactiveRateLimitDelay
      (some { limit := 100, remaining := 5, reset := 10, lastUpdated := 0 }) 0 ≤ 2000 :=
  (proactiveThrottle.2.2.1 { limit := 100, remaining := 5, reset := 10, lastUpdated := 0 } 0
    (by norm_num) (by norm_num)).2

-- ============================================================================
-- C9 — pagination cursor extraction
-- ============================================================================

/-- C9: on every successful paginated response the returned continuation
cursor is `extractAfterCursor` of the `rel="next"` link parsed from the
`Link` header — the `after` query parameter of that URL; in particular
the header `<https://host/api/v1/items?after=abc123>; rel="next"` yields
cursor `abc123`, and when no `rel="next"` link is present both the cursor
and the continuation URL are absent. -/
theorem paginationCursor :
    (∀ (cfg : Config) (token : String) (server : Nat → FetchOutcome) (times : Nat → Int)
      (rls : Option RateLimitState) (r : HttpResp),
      server 0 = .resp r → 200 ≤ r.status → r.status < 300 →
      (runPaginated cfg token server times rls).result
        = .ok { items := r.itemsJson
                nextAfter := extractAfterCursor (parseNextLink r.linkH)
                nextLink := parseNextLink r.linkH })
    ∧ extractAfterCursor (parseNextLink
        (some "<https://host/api/v1/items?after=abc123>; rel=\"next\"")) = some "abc123"
    ∧ parseNextLink (some "<https://host/api/v1/items?after=abc123>; rel=\"next\"")
        = some "https://host/api/v1/items?after=abc123"
    ∧ (∀ lh : Option String, parseNextLink lh = none →
        extractAfterCursor (parseNextLink lh) = none)
    ∧ parseNextLink (some "<https://host/api/v1/items?after=abc123>; rel=\"last\"") = none := by
  refine ⟨?_, by decide, by decide, ?_, by decide⟩
  · intro cfg token server times rls r hserv h200 h300
    have hne : ¬ r.status = 429 := by omega
    have hn5 : ¬ 500 ≤ r.status := by omega
    have hok : 200 ≤ r.status ∧ r.status < 300 := ⟨h200, h300⟩
    unfold runPaginated
    conv_lhs => rw [paginatedAux]
    simp [hserv, hne, hn5, hok]
  · intro lh h
    rw [h]
    rfl

/-- C9 witness: a concrete successful paginated call whose `Link` header
is the example header returns cursor `abc123` and the parsed next URL. -/
theorem paginationCursor_witness :
    (runPaginated
      { oktaDomain := "https://dev.okta.com", authServerId := none, clientId := "cid"
        scopes := [], maxRetries := 2, timeoutMs := 5000 }
      "tok"
      (fun _ => .resp { status := 200, statusText := "OK", limitH := none, remainingH := none
                        resetH := none
                        linkH := some "<https://host/api/v1/items?after=abc123>; rel=\"next\""
                        bodyText := "[]", errorSummaryB := none, itemsJson := ["g1", "g2"] })
      (fun _ => 0) none).result
      = .ok { items := ["g1", "g2"]
              nextAfter := extractAfterCursor (parseNextLink
                (some "<https://host/api/v1/items?after=abc123>; rel=\"next\""))
              nextLink := parseNextLink
                (some "<https://host/api/v1/items?after=abc123>; rel=\"next\"") } :=
  paginationCursor.1
    { oktaDomain := "https://dev.okta.com", authServerId := none, clientId := "cid"
      scopes := [], maxRetries := 2, timeoutMs := 5000 }
    "tok"
    (fun _ => .resp { status := 200, statusText := "OK", limitH := none, remainingH := none
                      resetH := none
                      linkH := some "<https://host/api/v1/items?after=abc123>; rel=\"next\""
                      bodyText := "[]", errorSummaryB := none, itemsJson := ["g1", "g2"] })
    (fun _ => 0) none
    { status := 200, statusText := "OK", limitH := none, remainingH := none
      resetH := none
      linkH := some "<https://host/api/v1/items?after=abc123>; rel=\"next\""
      bodyText := "[]", errorSummaryB := none, itemsJson := ["g1", "g2"] }
    rfl (by decide) (by decide)
